import Mathlib

/-!
# Verification of the webcam fruit game core loop

A shallow embedding of the gameplay logic of the fruit-slicing game
(Game view script: state refs, `spawnLoop`, `checkSlicing`, `renderGame`
miss handling, `activateFreeze` / `activateFrenzy`, `updateHandPosition`,
and the particle / debris pools with `createParticles` / `createDebris`).

Conventions of the embedding:
* JS numbers are modelled as `ℚ` for positions/velocities/time-scale,
  `ℤ` for millisecond timestamps, and `ℕ` for counters and the score.
* `Date.now()` is modelled as the state's current `time` field: within one
  synchronous pass the wall clock is constant, and time passage between
  passes is an explicit `advanceTo` step that also fires due `setTimeout`
  callbacks (the timer queue models the scheduled callbacks).
* `Math.hypot(a, b) < c` for `c > 0` is encoded as `a^2 + b^2 < c^2`,
  which is equivalent since `hypot` is the nonnegative square root.
* Calls into the sound manager, canvas and DOM effects are recorded as
  trace events; randomness (PRNG draws inside `createParticles`,
  `createDebris`) is supplied as an explicit payload-stream parameter.
-/

namespace FruitGame

/-- One entry of the `fruits` map: the physics body data the game reads
(`position`, `angle`, `velocity`, `circleRadius`) plus the game-side
`type` and `color` stored alongside the body. -/
structure Fruit where
  x : ℚ
  y : ℚ
  vx : ℚ
  vy : ℚ
  angle : ℚ
  circleRadius : ℚ
  ftype : String
  color : String
  deriving Repr, DecidableEq

/-- A floating score popup (`interface Popup`). -/
structure Popup where
  id : ℕ
  x : ℚ
  y : ℚ
  text : String
  color : String
  life : ℚ
  velocity : ℚ
  deriving Repr, DecidableEq

/-- Observable side effects of the game logic (sound calls, visual
effect triggers, navigation).  Recorded most-recent-first. -/
inductive GEvent where
  | playSlice
  | playBomb
  | playCombo (c : ℕ)
  | playGameOver
  | screenShake
  | hitStop
  | hitEffectBomb
  | hitEffectDamage
  | particles (x y : ℚ) (color : String) (isExplosion : Bool)
  | debris (x y : ℚ) (ftype : String)
  | startSpawning
  | gameOverNav (score : ℕ)
  deriving Repr, DecidableEq

/-- The pending `setTimeout` callbacks the game logic schedules. -/
inductive TimerKind where
  | unfreeze
  | unfrenzy
  | gameOverT
  deriving Repr, DecidableEq

/-- The mutable session state of the Game view: the `ref`s (`score`,
`lives`, `combo`, `maxCombo`, `lastSliceTime`, `gameStarted`,
`freezeActive`, `frenzyActive`, `popups`, `popupIdCounter`), the
`fruits` map (insertion-ordered entries), the physics engine
(`engineAlive` models `engine !== null`, `timeScale` models
`engine.timing.timeScale`), the wall clock, the pending timers, a
`crashed` flag (a thrown exception has aborted the current loop), and
the event trace. -/
structure GameState where
  score : ℕ
  lives : ℤ
  combo : ℕ
  maxCombo : ℕ
  lastSliceTime : ℤ
  time : ℤ
  popupIdCounter : ℕ
  popups : List Popup
  gameStarted : Bool
  freezeActive : Bool
  frenzyActive : Bool
  timeScale : ℚ
  engineAlive : Bool
  crashed : Bool
  fruits : List (ℕ × Fruit)
  timers : List (ℤ × TimerKind)
  events : List GEvent
  deriving Repr

/-- The state at the moment the countdown ends and Playing begins:
`score = 0`, `lives = 3`, `combo = 0`, `maxCombo = 0`,
`lastSliceTime = 0`, engine created, `gameStarted = true`. -/
def initGame : GameState where
  score := 0
  lives := 3
  combo := 0
  maxCombo := 0
  lastSliceTime := 0
  time := 0
  popupIdCounter := 0
  popups := []
  gameStarted := true
  freezeActive := false
  frenzyActive := false
  timeScale := 1
  engineAlive := true
  crashed := false
  fruits := []
  timers := []
  events := []

/-- `spawnLoop`'s delay computation:
`difficultyMultiplier = Math.floor(score / 50)`;
`delay = Math.max(600, 2000 - difficultyMultiplier * 100)`;
`if (frenzyActive) delay = 300`; `if (freezeActive) delay *= 2`. -/
def spawnDelay (score : ℕ) (frenzy freeze : Bool) : ℤ :=
  let difficultyMultiplier : ℤ := (score / 50 : ℕ)
  let delay : ℤ := max 600 (2000 - difficultyMultiplier * 100)
  let delay := if frenzy then 300 else delay
  if freeze then delay * 2 else delay

/-- `fruit.body.circleRadius || 30`: JS `||` falls back on `0`
(and on a missing radius). -/
def effectiveRadius (r : ℚ) : ℚ :=
  if r = 0 then 30 else r

/-- The hit test of `checkSlicing`:
`distToFruit < fruitRadius + 20` where
`distToFruit = Math.hypot(currX - position.x, currY - position.y)`.
Encoded without square roots: for `R = fruitRadius + 20` the test holds
iff `0 < R` and the squared distance is `< R^2`. -/
def inRange (cx cy : ℚ) (f : Fruit) : Bool :=
  let R := effectiveRadius f.circleRadius + 20
  decide (0 < R) && decide ((cx - f.x) ^ 2 + (cy - f.y) ^ 2 < R ^ 2)

/-- `activateFreeze`: sets `freezeActive = true`, sets the engine
time-scale to `0.5` (guarded by `if (engine)`), and schedules the
restoring callback `setTimeout(..., 5000)`. -/
def activateFreeze (s : GameState) : GameState :=
  { s with freezeActive := true
           timeScale := if s.engineAlive then 1/2 else s.timeScale
           timers := (s.time + 5000, TimerKind.unfreeze) :: s.timers }

/-- `activateFrenzy`: sets `frenzyActive = true`, restarts the spawn
loop (recorded as an event), and schedules the restoring callback
`setTimeout(..., 5000)`. -/
def activateFrenzy (s : GameState) : GameState :=
  { s with frenzyActive := true
           events := GEvent.startSpawning :: s.events
           timers := (s.time + 5000, TimerKind.unfrenzy) :: s.timers }

/-- The bomb branch of the fruit loop in `checkSlicing`:
`createParticles(x, y, black, true)`, `hitEffect = bomb`,
`soundManager.playBomb()`, `triggerScreenShake()`.  (`hitBomb = true`
and the `break` are handled by the caller.) -/
def bombHit (f : Fruit) (s : GameState) : GameState :=
  { s with events := GEvent.screenShake :: GEvent.playBomb ::
      GEvent.hitEffectBomb :: GEvent.particles f.x f.y "#000000" true :: s.events }

/-- The power-up branch: `freeze-banana` calls `activateFreeze()`,
`frenzy-banana` calls `activateFrenzy()`. -/
def powerUpCheck (f : Fruit) (s : GameState) : GameState :=
  if f.ftype = "freeze-banana" then activateFreeze s
  else if f.ftype = "frenzy-banana" then activateFrenzy s
  else s

/-- The non-hazard hit body of the fruit loop in `checkSlicing`, after
the id has been queued on `bodiesToRemove`: `playSlice`, `createDebris`,
`triggerHitStop`, the combo update against `Date.now()`, the max-combo
update, `points = 10 * combo`, the score update, the popup push, and
`createParticles`. -/
def normalHit (f : Fruit) (s : GameState) : GameState :=
  let s := { s with events := GEvent.hitStop :: GEvent.debris f.x f.y f.ftype ::
      GEvent.playSlice :: s.events }
  -- const now = Date.now()
  let now := s.time
  -- if (now - lastSliceTime < 500) { combo++; if (combo > 1) { playCombo;
  --   if (combo % 5 === 0) shake } } else { combo = 1 }
  let s :=
    if now - s.lastSliceTime < 500 then
      let c := s.combo + 1
      let evs := if c > 1 then
          (if c % 5 = 0 then [GEvent.screenShake, GEvent.playCombo c]
           else [GEvent.playCombo c])
        else []
      { s with combo := c, events := evs ++ s.events }
    else { s with combo := 1 }
  let s := { s with lastSliceTime := now }
  let s : GameState := if s.combo > s.maxCombo then { s with maxCombo := s.combo } else s
  let points := 10 * s.combo
  let s := { s with score := s.score + points }
  let popup : Popup :=
    { id := s.popupIdCounter, x := f.x, y := f.y - 30
      text := if s.combo > 1 then
          "+" ++ toString points ++ " (" ++ toString s.combo ++ "x)"
        else "+" ++ toString points
      color := "#ffffff", life := 1, velocity := 2 }
  let s := { s with popupIdCounter := s.popupIdCounter + 1
                    popups := s.popups ++ [popup] }
  { s with events := GEvent.particles f.x f.y f.color false :: s.events }

/-- The `for (const [id, fruit] of fruits.entries())` loop of
`checkSlicing`: returns the updated state, the accumulated
`bodiesToRemove` list, and the `hitBomb` flag.  A hit bomb `break`s out
of the loop immediately. -/
def processFruits (cx cy : ℚ) : List (ℕ × Fruit) → GameState → GameState × List ℕ × Bool
  | [], s => (s, [], false)
  | (id, f) :: rest, s =>
    if inRange cx cy f then
      if f.ftype = "bomb" then (bombHit f s, [], true)
      else
        let s1 := powerUpCheck f s
        let s2 := normalHit f s1
        let r := processFruits cx cy rest s2
        (r.1, id :: r.2.1, r.2.2)
    else processFruits cx cy rest s

/-- `bodiesToRemove.forEach(...)`: look each id up in the map and, if
found and the engine is live, remove the body from the world and delete
the map entry. -/
def removeBodies (ids : List ℕ) (s : GameState) : GameState :=
  ids.foldl (fun s i =>
    if (s.fruits.any fun p => p.1 = i) ∧ s.engineAlive then
      { s with fruits := s.fruits.filter fun p => p.1 ≠ i }
    else s) s

/-- One iteration of the hand loop of `checkSlicing` (one hand slot):
guards on both positions being present and on the swipe displacement
(`Math.hypot(...) < 5` ⟺ squared displacement `< 25`), runs the fruit
loop; on `hitBomb` sets `gameStarted = false` and schedules
`setTimeout(gameOver, 100)` (the returned flag makes the caller
`return`), otherwise applies the queued removals. -/
def checkHand (w h : ℚ) (hp lp : Option (ℚ × ℚ)) (s : GameState) :
    GameState × Bool :=
  match hp, lp with
  | some p, some l =>
    let cx := p.1 * w
    let cy := p.2 * h
    let lx := l.1 * w
    let ly := l.2 * h
    if (cx - lx) ^ 2 + (cy - ly) ^ 2 < 25 then (s, false)
    else
      let r := processFruits cx cy s.fruits s
      if r.2.2 then
        ({ r.1 with gameStarted := false
                    timers := (r.1.time + 100, TimerKind.gameOverT) :: r.1.timers },
         true)
      else (removeBodies r.2.1 r.1, false)
  | _, _ => (s, false)

/-- `checkSlicing` over the list of hand slots (the source iterates
slots 0 and 1); a bomb hit `return`s from the whole function, skipping
the remaining slots. -/
def checkSlicingAux (w h : ℚ) :
    List (Option (ℚ × ℚ) × Option (ℚ × ℚ)) → GameState → GameState
  | [], s => s
  | (hp, lp) :: rest, s =>
    let r := checkHand w h hp lp s
    if r.2 then r.1 else checkSlicingAux w h rest r.1

/-- `gameOver()`: `cleanup()` (clears the engine and timers of the
render/spawn loops), `playGameOver`, persists the high score, and
navigates to the game-over screen with the final score. -/
def gameOverRun (s : GameState) : GameState :=
  { s with engineAlive := false
           events := GEvent.gameOverNav s.score :: GEvent.playGameOver :: s.events }

/-- The miss branch of the `fruits.forEach` in `renderGame`, for one
fruit entry: if `position.y > canvas.height + 100 && velocity.y > 0`,
remove the body (`Matter.World.remove(engine!.world, ...)` — a thrown
`TypeError` when the engine has been cleared is modelled by the
`crashed` flag, which aborts the rest of the pass), delete the map
entry, and while `gameStarted` decrement `lives`, flash the damage
effect, and call `gameOver()` when `lives <= 0`. -/
def missFruit (h : ℚ) (s : GameState) (p : ℕ × Fruit) : GameState :=
  if s.crashed then s
  else if p.2.y > h + 100 ∧ p.2.vy > 0 then
    if s.engineAlive = false then { s with crashed := true }
    else
      let s := { s with fruits := s.fruits.filter fun q => q.1 ≠ p.1 }
      if s.gameStarted then
        let s := { s with lives := s.lives - 1
                          events := GEvent.hitEffectDamage :: s.events }
        if s.lives ≤ 0 then gameOverRun s else s
      else s
  else s

/-- The `setTimeout` callbacks: the freeze restorer
(`freezeActive = false; if (engine) engine.timing.timeScale = 1`), the
frenzy restorer (`frenzyActive = false`), and the delayed `gameOver()`
scheduled on a bomb hit. -/
def fireTimer : TimerKind → GameState → GameState
  | TimerKind.unfreeze, s =>
    { s with freezeActive := false
             timeScale := if s.engineAlive then 1 else s.timeScale }
  | TimerKind.unfrenzy, s => { s with frenzyActive := false }
  | TimerKind.gameOverT, s => gameOverRun s

/-- The earliest pending timer with deadline `≤ t`, if any. -/
def earliestDue (t : ℤ) (l : List (ℤ × TimerKind)) : Option (ℤ × TimerKind) :=
  (l.filter fun p => p.1 ≤ t).foldl
    (fun acc p =>
      match acc with
      | none => some p
      | some q => if p.1 < q.1 then some p else some q)
    none

/-- Remove the first occurrence of a timer entry. -/
def removeFirstTimer (p : ℤ × TimerKind) : List (ℤ × TimerKind) → List (ℤ × TimerKind)
  | [] => []
  | q :: rest => if q = p then rest else q :: removeFirstTimer p rest

/-- Fire, earliest first, every pending timer whose deadline is `≤ t`
(fuel-bounded recursion; each step removes one timer). -/
def advanceAux : ℕ → ℤ → GameState → GameState
  | 0, t, s => { s with time := t }
  | n + 1, t, s =>
    match earliestDue t s.timers with
    | none => { s with time := t }
    | some p =>
      advanceAux n t (fireTimer p.2 { s with time := p.1, timers := removeFirstTimer p s.timers })

/-- Let wall-clock time pass until `t`: fires every due `setTimeout`
callback in deadline order, then sets the clock to `t`. -/
def advanceTo (t : ℤ) (s : GameState) : GameState :=
  advanceAux s.timers.length t s

/-- The session-level operations interleaved by the event loop: a
render tick's slicing pass (`loop()` guards on the engine and canvas
and calls `checkSlicing()` only while `gameStarted`), one missed-fruit
check of `renderGame`, passage of wall-clock time (firing due timers),
and a spawn attempt (`spawnFruit()` returns without the engine or when
`fruits.size >= 15`; the randomly built body is the operation's
parameter). -/
inductive SessionOp where
  | slice (w h : ℚ) (hands : List (Option (ℚ × ℚ) × Option (ℚ × ℚ)))
  | miss (h : ℚ) (p : ℕ × Fruit)
  | advance (t : ℤ)
  | spawn (p : ℕ × Fruit)

/-- Apply one session-level operation. -/
def sessionStep (s : GameState) : SessionOp → GameState
  | SessionOp.slice w h hands =>
    if s.crashed ∨ s.engineAlive = false then s
    else if s.gameStarted then checkSlicingAux w h hands s
    else s
  | SessionOp.miss h p => missFruit h s p
  | SessionOp.advance t => advanceTo t s
  | SessionOp.spawn p =>
    if s.crashed ∨ s.engineAlive = false then s
    else if 15 ≤ s.fruits.length then s
    else { s with fruits := s.fruits ++ [p] }

/-- Run a sequence of session-level operations. -/
def runSession (s : GameState) (ops : List SessionOp) : GameState :=
  ops.foldl sessionStep s

/-- A sample plain fruit sitting at the origin (type `apple`,
radius 30, color from `FRUIT_TYPES`). -/
def appleFruit : Fruit where
  x := 0
  y := 0
  vx := 0
  vy := 0
  angle := 0
  circleRadius := 30
  ftype := "apple"
  color := "#ff4444"

/-- A sample hazard at the origin (type `bomb`, radius 35, from
`BOMB_TYPE`). -/
def bombFruit : Fruit where
  x := 0
  y := 0
  vx := 0
  vy := 0
  angle := 0
  circleRadius := 35
  ftype := "bomb"
  color := "#000000"

/-- The adaptive smoothing factor of `updateHandPosition`:
`0.2 + Math.min(dist * 8, 0.6)`. -/
def smoothingFactor (dist : ℚ) : ℚ :=
  1/5 + min (dist * 8) (3/5)

/-- The factor as the specification phrases it:
`clamp(0.2 + dist * 8, 0.2, 0.8)`. -/
def clampFactor (dist : ℚ) : ℚ :=
  max (1/5) (min (1/5 + dist * 8) (4/5))

/-- One smoothing update of `updateHandPosition` for a slot that has
both a previous smoothed position and a raw target:
`dx = target.x - smoothed.x`, `dy = target.y - smoothed.y`,
`dist = sqrt(dx² + dy²)` (supplied as the `dist` argument), and the
lerp `smoothed += d * smoothingFactor`. -/
def updateSmoothedPos (smoothed target : ℚ × ℚ) (dist : ℚ) : ℚ × ℚ :=
  let dx := target.1 - smoothed.1
  let dy := target.2 - smoothed.2
  let f := smoothingFactor dist
  (smoothed.1 + dx * f, smoothed.2 + dy * f)

/-- One pooled particle slot. -/
structure Particle where
  x : ℚ
  y : ℚ
  vx : ℚ
  vy : ℚ
  life : ℚ
  color : String
  size : ℚ
  active : Bool
  deriving Repr, DecidableEq

/-- One pooled debris slot. -/
structure Debris where
  x : ℚ
  y : ℚ
  vx : ℚ
  vy : ℚ
  rotation : ℚ
  rotSpeed : ℚ
  dtype : String
  side : String
  life : ℚ
  active : Bool
  deriving Repr, DecidableEq

/-- `MAX_PARTICLES`. -/
def MAX_PARTICLES : ℕ := 200

/-- `MAX_DEBRIS`. -/
def MAX_DEBRIS : ℕ := 30

/-- A fresh inert particle slot, as built by the pool initializer. -/
def blankParticle : Particle where
  x := 0
  y := 0
  vx := 0
  vy := 0
  life := 0
  color := ""
  size := 0
  active := false

/-- A fresh inert debris slot, as built by the pool initializer. -/
def blankDebris : Debris where
  x := 0
  y := 0
  vx := 0
  vy := 0
  rotation := 0
  rotSpeed := 0
  dtype := ""
  side := "left"
  life := 0
  active := false

/-- The PRNG draws consumed when one particle slot is filled:
`vx`/`vy` stand for `cos(angle) * speed` / `sin(angle) * speed`, the
size draw, and the red/yellow pick used for explosion particles. -/
structure PPayload where
  vx : ℚ
  vy : ℚ
  size : ℚ
  explColor : String

/-- The PRNG/trig values consumed when one debris slot is filled:
`cosA`/`sinA` stand for `cos(rotation + angleOffset)` /
`sin(rotation + angleOffset)` and `rotSpeed` for the random spin. -/
structure DPayload where
  cosA : ℚ
  sinA : ℚ
  rotSpeed : ℚ

/-- The common slot-filling loop shape of `createParticles` and
`createDebris`: walk the pool in index order with a `spawned` counter,
`break` when `spawned >= need`, fill only slots with `active == false`.
Returns the new pool and the number of slots filled. -/
def fillPool (isActive : α → Bool) (mkNew : ℕ → α → α) (need : ℕ) :
    List α → ℕ → List α × ℕ
  | [], n => ([], n)
  | p :: rest, n =>
    if need ≤ n then (p :: rest, n)
    else if isActive p then
      let r := fillPool isActive mkNew need rest n
      (p :: r.1, r.2)
    else
      let r := fillPool isActive mkNew need rest (n + 1)
      (mkNew n p :: r.1, r.2)

/-- Filling one main particle slot inside `createParticles`:
`active = true`, position, velocity and size from the draws,
`life = 1.0`, color black/red/yellow for explosions else the fruit
color. -/
def spawnParticle (x y : ℚ) (color : String) (isExplosion : Bool)
    (pay : PPayload) (p : Particle) : Particle :=
  { p with active := true, x := x, y := y, vx := pay.vx, vy := pay.vy
           life := 1, color := if isExplosion then pay.explColor else color
           size := pay.size }

/-- Filling one white spark slot in the second loop of
`createParticles`: `life = 0.8`, `color = '#ffffff'`. -/
def spawnSpark (x y : ℚ) (pay : PPayload) (p : Particle) : Particle :=
  { p with active := true, x := x, y := y, vx := pay.vx, vy := pay.vy
           life := 4/5, color := "#ffffff", size := pay.size }

/-- `createParticles(x, y, color, isExplosion)` over the pool and the
`activeParticleCount` counter: throttled when the counter exceeds 100;
fills up to 30 (explosion) or 15 slots, then for non-explosions up to 8
extra spark slots.  `pays`/`spays` supply the PRNG draws. -/
def createParticles (x y : ℚ) (color : String) (isExplosion : Bool)
    (pays spays : ℕ → PPayload) (pool : List Particle) (activeCount : ℕ) :
    List Particle × ℕ :=
  if 100 < activeCount then (pool, activeCount)
  else
    let count := if isExplosion then 30 else 15
    let r1 := fillPool (fun p => p.active)
      (fun i p => spawnParticle x y color isExplosion (pays i) p) count pool 0
    let ac1 := activeCount + r1.2
    if isExplosion then (r1.1, ac1)
    else
      let r2 := fillPool (fun p => p.active)
        (fun i p => spawnSpark x y (spays i) p) 8 r1.1 0
      (r2.1, ac1 + r2.2)

/-- Filling one debris slot inside `createDebris`: the first filled
slot is the `left` half, the second the `right`;
`vx = cos(rotation + angleOffset) * 5 + sliceVx * 0.2` and likewise for
`vy`, with the trig values and the random spin supplied by `pay`. -/
def spawnDebris (x y : ℚ) (dtype : String) (rotation sliceVx sliceVy : ℚ)
    (pay : DPayload) (spawned : ℕ) (d : Debris) : Debris :=
  { d with active := true, x := x, y := y, dtype := dtype
           rotation := rotation, life := 1
           side := if spawned = 0 then "left" else "right"
           vx := pay.cosA * 5 + sliceVx * (1/5)
           vy := pay.sinA * 5 + sliceVy * (1/5)
           rotSpeed := pay.rotSpeed }

/-- `createDebris(x, y, type, rotation, sliceVx, sliceVy)`: fills up to
2 inactive slots of the debris pool. -/
def createDebris (x y : ℚ) (dtype : String) (rotation sliceVx sliceVy : ℚ)
    (pays : ℕ → DPayload) (pool : List Debris) : List Debris :=
  (fillPool (fun d => d.active)
    (fun i d => spawnDebris x y dtype rotation sliceVx sliceVy (pays i) i d)
    2 pool 0).1

/-- The per-frame particle update of `renderGame` for one slot:
integrate position, gravity `vy += 0.5`, fade `life -= 0.02`, and
deactivate when `life <= 0 || y > canvas.height`. -/
def stepParticle (h : ℚ) (p : Particle) : Particle :=
  if p.active then
    let p := { p with x := p.x + p.vx, y := p.y + p.vy
                      vy := p.vy + 1/2, life := p.life - 1/50 }
    if p.life ≤ 0 ∨ p.y > h then { p with active := false } else p
  else p

/-- Number of active slots of a particle pool. -/
def countActiveP (pool : List Particle) : ℕ :=
  pool.countP fun p => p.active

/-- Number of active slots of a debris pool. -/
def countActiveD (pool : List Debris) : ℕ :=
  pool.countP fun d => d.active

/-- The particle-drawing pass of `renderGame`: skipped entirely when
`activeParticleCount` is 0; otherwise updates every active slot, the
counter dropping by the number of deactivations. -/
def renderParticles (h : ℚ) (pool : List Particle) (activeCount : ℕ) :
    List Particle × ℕ :=
  if activeCount = 0 then (pool, activeCount)
  else
    let pool2 := pool.map (stepParticle h)
    (pool2, activeCount - (countActiveP pool - countActiveP pool2))

/-- The per-frame debris update of `renderGame` for one slot:
integrate position, gravity `vy += 0.8`, spin, fade `life -= 0.015`,
deactivate when `life <= 0 || y > canvas.height`. -/
def stepDebris (h : ℚ) (d : Debris) : Debris :=
  if d.active then
    let d := { d with x := d.x + d.vx, y := d.y + d.vy
                      vy := d.vy + 4/5, rotation := d.rotation + d.rotSpeed
                      life := d.life - 3/200 }
    if d.life ≤ 0 ∨ d.y > h then { d with active := false } else d
  else d

/-- The debris-drawing pass of `renderGame`. -/
def renderDebris (h : ℚ) (pool : List Debris) : List Debris :=
  pool.map (stepDebris h)

/-- The effects-layer state: the two fixed pools and the
`activeParticleCount` counter. -/
structure EffectSys where
  particles : List Particle
  activeParticleCount : ℕ
  debris : List Debris

/-- The pools as initialized: `Array(MAX).fill(null).map(() => inert)`. -/
def initEffects : EffectSys where
  particles := List.replicate MAX_PARTICLES blankParticle
  activeParticleCount := 0
  debris := List.replicate MAX_DEBRIS blankDebris

/-- The operations that touch the pools: the two producers and the
per-frame render update. -/
inductive EffectOp where
  | pcreate (x y : ℚ) (color : String) (isExplosion : Bool) (pays spays : ℕ → PPayload)
  | dcreate (x y : ℚ) (dtype : String) (rotation sliceVx sliceVy : ℚ) (pays : ℕ → DPayload)
  | render (h : ℚ)

/-- Apply one effects-layer operation. -/
def effectStep (sys : EffectSys) : EffectOp → EffectSys
  | EffectOp.pcreate x y color isExplosion pays spays =>
    let r := createParticles x y color isExplosion pays spays
      sys.particles sys.activeParticleCount
    { sys with particles := r.1, activeParticleCount := r.2 }
  | EffectOp.dcreate x y dtype rotation sliceVx sliceVy pays =>
    { sys with debris := createDebris x y dtype rotation sliceVx sliceVy pays sys.debris }
  | EffectOp.render h =>
    let r := renderParticles h sys.particles sys.activeParticleCount
    { particles := r.1, activeParticleCount := r.2
      debris := renderDebris h sys.debris }

/-- How many navigations to the game-over screen the trace records
(one per `gameOver()` call). -/
def navCount (s : GameState) : ℕ :=
  s.events.countP fun e =>
    match e with
    | GEvent.gameOverNav _ => true
    | _ => false

/-- The lives/game-over invariant: either the session is live
(positive lives, no game-over navigation, engine present) or it has
ended with lives exactly 0, exactly one navigation, and the engine
cleared. -/
def livesOk (s : GameState) : Prop :=
  (0 < s.lives ∧ navCount s = 0 ∧ s.engineAlive = true) ∨
  (s.lives = 0 ∧ navCount s = 1 ∧ s.engineAlive = false)

/-- A session state holding a single bomb: used to exercise the hazard
branch concretely. -/
def demoBombState : GameState :=
  { initGame with fruits := [(1, bombFruit)] }

/-- A session state holding an apple followed by a bomb, both under
the cursor: used to exercise a pass where a normal hit precedes the
hazard hit. -/
def demoMixedState : GameState :=
  { initGame with fruits := [(1, appleFruit), (2, bombFruit)] }

/-- A sample Freeze power-up body (type `freeze-banana`, radius 35,
from `FRUIT_TYPES`). -/
def freezeBananaFruit : Fruit where
  x := 0
  y := 0
  vx := 0
  vy := 0
  angle := 0
  circleRadius := 35
  ftype := "freeze-banana"
  color := "#00ffff"

/-- A short session: spawn an apple, slice it at time 0, then let
1000ms pass with no further hit. -/
def silenceTrace : List SessionOp :=
  [SessionOp.spawn (1, appleFruit),
   SessionOp.slice 100 100 [(some (0, 0), some (1/2, 1/2))],
   SessionOp.advance 1000]

/-! ## Basic lemmas -/

theorem spawnDelay_base (score : ℕ) :
    spawnDelay score false false = max 600 (2000 - ((score / 50 : ℕ) : ℤ) * 100) := by
  simp [spawnDelay]

theorem spawnDelay_frenzy (score : ℕ) :
    spawnDelay score true false = 300 := by
  simp [spawnDelay]

theorem spawnDelay_freeze (score : ℕ) :
    spawnDelay score false true = 2 * max 600 (2000 - ((score / 50 : ℕ) : ℤ) * 100) := by
  simp [spawnDelay, mul_comm]

theorem spawnDelay_both (score : ℕ) :
    spawnDelay score true true = 600 := by
  simp [spawnDelay]

/-! ## C4 — spawn delay formula and power-up modifiers -/

/-- C4 counterexample: with Frenzy and Freeze both active the computed
delay is 600 (the Frenzy value doubled by Freeze), not the claimed 300:
the code applies the Freeze doubling after the Frenzy override. -/
theorem spawnDelay_both_ne_frenzy :
    spawnDelay 0 true true = 600 ∧ ¬spawnDelay 0 true true = 300 := by
  constructor
  · simp [spawnDelay]
  · simp [spawnDelay]

/-- C4 (amended): the spawn delay equals
`max(600, 2000 − floor(score/50)*100)`; Frenzy alone forces 300; Freeze
alone doubles the computed delay; with both active the delay is the
Frenzy value doubled by Freeze, i.e. 600, not 300. -/
theorem spawnDelay_spec (score : ℕ) :
    spawnDelay score false false = max 600 (2000 - ((score / 50 : ℕ) : ℤ) * 100) ∧
    spawnDelay score true false = 300 ∧
    spawnDelay score false true = 2 * max 600 (2000 - ((score / 50 : ℕ) : ℤ) * 100) ∧
    spawnDelay score true true = 600 :=
  ⟨spawnDelay_base score, spawnDelay_frenzy score, spawnDelay_freeze score,
   spawnDelay_both score⟩

/-! ## C8 — adaptive smoothing factor -/

theorem smoothingFactor_eq_clamp (dist : ℚ) (hd : 0 ≤ dist) :
    smoothingFactor dist = clampFactor dist := by
  unfold smoothingFactor clampFactor
  rcases le_total (dist * 8) (3/5) with h | h
  · rw [min_eq_left h, min_eq_left (by linarith), max_eq_right (by nlinarith)]
  · rw [min_eq_right h, min_eq_right (by linarith), max_eq_right (by norm_num)]
    norm_num

/-- C8: one smoothing update computes `d = target − smoothed` and moves
the smoothed position by `d * factor`, where the code's factor
`0.2 + min(dist*8, 0.6)` coincides with the spec's
`clamp(0.2 + dist*8, 0.2, 0.8)` for every distance `≥ 0`. -/
theorem updateHandPosition_smoothing (smoothed target : ℚ × ℚ) (dist : ℚ)
    (hd : 0 ≤ dist) :
    smoothingFactor dist = clampFactor dist ∧
    updateSmoothedPos smoothed target dist =
      (smoothed.1 + (target.1 - smoothed.1) * clampFactor dist,
       smoothed.2 + (target.2 - smoothed.2) * clampFactor dist) := by
  refine ⟨smoothingFactor_eq_clamp dist hd, ?_⟩
  simp [updateSmoothedPos, smoothingFactor_eq_clamp dist hd]

/-- Witness for C8 at `smoothed = (0,0)`, `target = (1,0)`, `dist = 1`. -/
theorem updateHandPosition_smoothing_witness :
    smoothingFactor 1 = clampFactor 1 ∧
    updateSmoothedPos (0, 0) (1, 0) 1 =
      ((0:ℚ) + ((1:ℚ) - 0) * clampFactor 1, (0:ℚ) + ((0:ℚ) - 0) * clampFactor 1) :=
  updateHandPosition_smoothing (0, 0) (1, 0) 1 (by norm_num)

/-! ## Lemmas about the hit-processing state updates -/

theorem powerUpCheck_combo (f : Fruit) (s : GameState) :
    (powerUpCheck f s).combo = s.combo := by
  unfold powerUpCheck activateFreeze activateFrenzy
  split <;> [rfl; split <;> rfl]

theorem powerUpCheck_lastSliceTime (f : Fruit) (s : GameState) :
    (powerUpCheck f s).lastSliceTime = s.lastSliceTime := by
  unfold powerUpCheck activateFreeze activateFrenzy
  split <;> [rfl; split <;> rfl]

theorem powerUpCheck_time (f : Fruit) (s : GameState) :
    (powerUpCheck f s).time = s.time := by
  unfold powerUpCheck activateFreeze activateFrenzy
  split <;> [rfl; split <;> rfl]

theorem powerUpCheck_score (f : Fruit) (s : GameState) :
    (powerUpCheck f s).score = s.score := by
  unfold powerUpCheck activateFreeze activateFrenzy
  split <;> [rfl; split <;> rfl]

theorem powerUpCheck_fruits (f : Fruit) (s : GameState) :
    (powerUpCheck f s).fruits = s.fruits := by
  unfold powerUpCheck activateFreeze activateFrenzy
  split <;> [rfl; split <;> rfl]

theorem powerUpCheck_popups (f : Fruit) (s : GameState) :
    (powerUpCheck f s).popups = s.popups := by
  unfold powerUpCheck activateFreeze activateFrenzy
  split <;> [rfl; split <;> rfl]

theorem normalHit_combo (f : Fruit) (s : GameState) :
    (normalHit f s).combo =
      if s.time - s.lastSliceTime < 500 then s.combo + 1 else 1 := by
  by_cases h : s.time - s.lastSliceTime < 500 <;>
    simp [normalHit, h, apply_ite GameState.combo]

theorem normalHit_lastSliceTime (f : Fruit) (s : GameState) :
    (normalHit f s).lastSliceTime = s.time := by
  by_cases h : s.time - s.lastSliceTime < 500 <;>
    simp [normalHit, h, apply_ite GameState.lastSliceTime]

theorem normalHit_time (f : Fruit) (s : GameState) :
    (normalHit f s).time = s.time := by
  by_cases h : s.time - s.lastSliceTime < 500 <;>
    simp [normalHit, h, apply_ite GameState.time]

theorem normalHit_score (f : Fruit) (s : GameState) :
    (normalHit f s).score = s.score + 10 * (normalHit f s).combo := by
  rw [normalHit_combo]
  by_cases h : s.time - s.lastSliceTime < 500 <;>
    simp [normalHit, h, apply_ite GameState.score, apply_ite GameState.combo]

theorem normalHit_fruits (f : Fruit) (s : GameState) :
    (normalHit f s).fruits = s.fruits := by
  by_cases h : s.time - s.lastSliceTime < 500 <;>
    simp [normalHit, h, apply_ite GameState.fruits]

theorem normalHit_popups (f : Fruit) (s : GameState) :
    (normalHit f s).popups.length = s.popups.length + 1 := by
  by_cases h : s.time - s.lastSliceTime < 500 <;>
    simp [normalHit, h, apply_ite GameState.popups]

theorem normalHit_combo_pos (f : Fruit) (s : GameState) :
    1 ≤ (normalHit f s).combo := by
  rw [normalHit_combo]
  split <;> omega

/-! ## C1 — combo update rule per hit -/

/-- C1: every non-hazard hit resolved by the fruit loop updates the
combo to `combo + 1` when less than 500ms have passed since
`lastSliceTime`, and to 1 otherwise; `lastSliceTime` is set to the
current time after the hit, so a later hit in the same pass compares
against it; the loop then continues on the remaining entries from the
updated state. -/
theorem checkSlicing_combo_rule (cx cy : ℚ) (id : ℕ) (f : Fruit)
    (rest : List (ℕ × Fruit)) (s : GameState)
    (hin : inRange cx cy f = true) (hb : ¬f.ftype = "bomb") :
    (normalHit f (powerUpCheck f s)).combo =
      (if s.time - s.lastSliceTime < 500 then s.combo + 1 else 1) ∧
    (normalHit f (powerUpCheck f s)).lastSliceTime = s.time ∧
    processFruits cx cy ((id, f) :: rest) s =
      ((processFruits cx cy rest (normalHit f (powerUpCheck f s))).1,
       id :: (processFruits cx cy rest (normalHit f (powerUpCheck f s))).2.1,
       (processFruits cx cy rest (normalHit f (powerUpCheck f s))).2.2) := by
  refine ⟨?_, ?_, ?_⟩
  · rw [normalHit_combo, powerUpCheck_time, powerUpCheck_lastSliceTime,
      powerUpCheck_combo]
  · rw [normalHit_lastSliceTime, powerUpCheck_time]
  · simp [processFruits, hin, hb]

/-- Witness for C1: a hit on the apple at the origin from the initial
state increments the combo (elapsed time 0 < 500ms). -/
theorem checkSlicing_combo_rule_witness :
    (normalHit appleFruit (powerUpCheck appleFruit initGame)).combo =
      (if initGame.time - initGame.lastSliceTime < 500 then initGame.combo + 1 else 1) ∧
    (normalHit appleFruit (powerUpCheck appleFruit initGame)).lastSliceTime =
      initGame.time ∧
    processFruits 0 0 ((1, appleFruit) :: []) initGame =
      ((processFruits 0 0 [] (normalHit appleFruit (powerUpCheck appleFruit initGame))).1,
       1 :: (processFruits 0 0 [] (normalHit appleFruit (powerUpCheck appleFruit initGame))).2.1,
       (processFruits 0 0 [] (normalHit appleFruit (powerUpCheck appleFruit initGame))).2.2) :=
  checkSlicing_combo_rule 0 0 1 appleFruit [] initGame
    (by norm_num [inRange, effectiveRadius, appleFruit])
    (by simp [appleFruit])

/-! ## Score-preservation and monotonicity lemmas -/

theorem bombHit_score (f : Fruit) (s : GameState) :
    (bombHit f s).score = s.score := rfl

theorem processFruits_score_le (cx cy : ℚ) (l : List (ℕ × Fruit)) :
    ∀ s : GameState, s.score ≤ (processFruits cx cy l s).1.score := by
  induction l with
  | nil => intro s; simp [processFruits]
  | cons p rest ih =>
    intro s
    obtain ⟨id, f⟩ := p
    by_cases h1 : inRange cx cy f = true
    · by_cases h2 : f.ftype = "bomb"
      · simp [processFruits, h1, h2, bombHit_score]
      · have h3 := ih (normalHit f (powerUpCheck f s))
        have h4 : s.score ≤ (normalHit f (powerUpCheck f s)).score := by
          rw [normalHit_score, powerUpCheck_score]; omega
        simp only [processFruits, h1, if_true, h2, if_false]
        omega
    · simp only [processFruits, h1, if_false]
      exact ih s

theorem removeBodies_eq (ids : List ℕ) :
    ∀ s : GameState, ∃ fr, removeBodies ids s = { s with fruits := fr } := by
  induction ids with
  | nil => intro s; exact ⟨s.fruits, rfl⟩
  | cons i ids ih =>
    intro s
    have hstep : removeBodies (i :: ids) s =
        removeBodies ids
          (if (s.fruits.any fun p => p.1 = i) ∧ s.engineAlive then
            { s with fruits := s.fruits.filter fun p => p.1 ≠ i }
          else s) := rfl
    rw [hstep]
    by_cases h : (s.fruits.any fun p => p.1 = i) ∧ s.engineAlive
    · rw [if_pos h]
      obtain ⟨fr, hfr⟩ := ih { s with fruits := s.fruits.filter fun p => p.1 ≠ i }
      exact ⟨fr, hfr⟩
    · rw [if_neg h]
      exact ih s

theorem checkHand_score_le (w h : ℚ) (hp lp : Option (ℚ × ℚ)) (s : GameState) :
    s.score ≤ (checkHand w h hp lp s).1.score := by
  cases hp with
  | none => cases lp <;> simp [checkHand]
  | some p =>
    cases lp with
    | none => simp [checkHand]
    | some l =>
      simp only [checkHand]
      split
      · exact le_refl _
      · split
        · exact processFruits_score_le _ _ _ s
        · obtain ⟨fr, hfr⟩ := removeBodies_eq
            (processFruits (p.1 * w) (p.2 * h) s.fruits s).2.1
            (processFruits (p.1 * w) (p.2 * h) s.fruits s).1
          rw [hfr]
          exact processFruits_score_le _ _ _ s

theorem checkSlicingAux_score_le (w h : ℚ)
    (hands : List (Option (ℚ × ℚ) × Option (ℚ × ℚ))) :
    ∀ s : GameState, s.score ≤ (checkSlicingAux w h hands s).score := by
  induction hands with
  | nil => intro s; exact le_refl _
  | cons hd rest ih =>
    intro s
    obtain ⟨hp, lp⟩ := hd
    simp only [checkSlicingAux]
    split
    · exact checkHand_score_le w h hp lp s
    · exact le_trans (checkHand_score_le w h hp lp s) (ih _)

theorem gameOverRun_score (s : GameState) : (gameOverRun s).score = s.score := rfl

theorem missFruit_score (h : ℚ) (s : GameState) (p : ℕ × Fruit) :
    (missFruit h s p).score = s.score := by
  simp only [missFruit, gameOverRun]
  split_ifs <;> rfl

theorem fireTimer_score (k : TimerKind) (s : GameState) :
    (fireTimer k s).score = s.score := by
  cases k <;> rfl

theorem advanceAux_score (n : ℕ) :
    ∀ (t : ℤ) (s : GameState), (advanceAux n t s).score = s.score := by
  induction n with
  | zero => intro t s; rfl
  | succ n ih =>
    intro t s
    simp only [advanceAux]
    cases h : earliestDue t s.timers with
    | none => rfl
    | some p => rw [ih, fireTimer_score]

theorem advanceTo_score (t : ℤ) (s : GameState) :
    (advanceTo t s).score = s.score :=
  advanceAux_score _ t s

theorem sessionStep_score_le (s : GameState) (op : SessionOp) :
    s.score ≤ (sessionStep s op).score := by
  cases op with
  | slice w h hands =>
    simp only [sessionStep]
    split
    · exact le_refl _
    · split
      · exact checkSlicingAux_score_le w h hands s
      · exact le_refl _
  | miss h p => simp only [sessionStep, missFruit_score, le_refl]
  | advance t => simp only [sessionStep, advanceTo_score, le_refl]
  | spawn p =>
    simp only [sessionStep]
    split_ifs <;> exact le_refl _

theorem runSession_score_le (ops : List SessionOp) :
    ∀ s : GameState, s.score ≤ (runSession s ops).score := by
  induction ops with
  | nil => intro s; exact le_refl _
  | cons op rest ih =>
    intro s
    exact le_trans (sessionStep_score_le s op) (ih (sessionStep s op))

/-! ## C5 — points per hit and score monotonicity -/

/-- C5: a non-hazard hit awards exactly `10 * combo` points (at the
post-update combo value the hit is resolved with), and no
session-level operation ever decreases the cumulative score. -/
theorem score_award_and_monotone :
    (∀ (f : Fruit) (s : GameState),
      (normalHit f (powerUpCheck f s)).score =
        s.score + 10 * (normalHit f (powerUpCheck f s)).combo) ∧
    (∀ (s : GameState) (ops : List SessionOp),
      s.score ≤ (runSession s ops).score) :=
  ⟨fun f s => by rw [normalHit_score, powerUpCheck_score],
   fun s ops => runSession_score_le ops s⟩

/-! ## C2 — lives invariant and single game-over -/

theorem missFruit_crashed (h : ℚ) (s : GameState) (p : ℕ × Fruit)
    (hc : s.crashed = true) : missFruit h s p = s := by
  simp [missFruit, hc]

theorem missFruit_nomiss (h : ℚ) (s : GameState) (p : ℕ × Fruit)
    (hc : s.crashed = false) (hm : ¬(p.2.y > h + 100 ∧ p.2.vy > 0)) :
    missFruit h s p = s := by
  simp [missFruit, hc, hm]

theorem missFruit_dead (h : ℚ) (s : GameState) (p : ℕ × Fruit)
    (hc : s.crashed = false) (hm : p.2.y > h + 100 ∧ p.2.vy > 0)
    (he : s.engineAlive = false) :
    missFruit h s p = { s with crashed := true } := by
  simp [missFruit, hc, hm, he]

theorem missFruit_notStarted (h : ℚ) (s : GameState) (p : ℕ × Fruit)
    (hc : s.crashed = false) (hm : p.2.y > h + 100 ∧ p.2.vy > 0)
    (he : s.engineAlive = true) (hg : s.gameStarted = false) :
    missFruit h s p = { s with fruits := s.fruits.filter fun q => q.1 ≠ p.1 } := by
  simp [missFruit, hc, hm, he, hg]

theorem missFruit_hit (h : ℚ) (s : GameState) (p : ℕ × Fruit)
    (hc : s.crashed = false) (hm : p.2.y > h + 100 ∧ p.2.vy > 0)
    (he : s.engineAlive = true) (hg : s.gameStarted = true) :
    missFruit h s p =
      (if s.lives - 1 ≤ 0 then
        gameOverRun
          { s with fruits := s.fruits.filter fun q => q.1 ≠ p.1
                   lives := s.lives - 1
                   events := GEvent.hitEffectDamage :: s.events }
      else
        { s with fruits := s.fruits.filter fun q => q.1 ≠ p.1
                 lives := s.lives - 1
                 events := GEvent.hitEffectDamage :: s.events }) := by
  simp [missFruit, hc, hm, he, hg]

theorem powerUpCheck_lives (f : Fruit) (s : GameState) :
    (powerUpCheck f s).lives = s.lives := by
  unfold powerUpCheck activateFreeze activateFrenzy
  split <;> [rfl; split <;> rfl]

theorem normalHit_lives (f : Fruit) (s : GameState) :
    (normalHit f s).lives = s.lives := by
  by_cases h : s.time - s.lastSliceTime < 500 <;>
    simp [normalHit, h, apply_ite GameState.lives]

theorem processFruits_lives (cx cy : ℚ) (l : List (ℕ × Fruit)) :
    ∀ s : GameState, (processFruits cx cy l s).1.lives = s.lives := by
  induction l with
  | nil => intro s; rfl
  | cons p rest ih =>
    intro s
    obtain ⟨id, f⟩ := p
    by_cases h1 : inRange cx cy f = true
    · by_cases h2 : f.ftype = "bomb"
      · simp [processFruits, h1, h2, bombHit]
      · simp only [processFruits, h1, if_true, h2, if_false]
        rw [ih, normalHit_lives, powerUpCheck_lives]
    · simp only [processFruits, h1, if_false]
      exact ih s

theorem checkHand_lives (w h : ℚ) (hp lp : Option (ℚ × ℚ)) (s : GameState) :
    (checkHand w h hp lp s).1.lives = s.lives := by
  cases hp with
  | none => cases lp <;> rfl
  | some p =>
    cases lp with
    | none => rfl
    | some l =>
      simp only [checkHand]
      split
      · rfl
      · split
        · show (processFruits (p.1 * w) (p.2 * h) s.fruits s).1.lives = s.lives
          exact processFruits_lives _ _ _ s
        · obtain ⟨fr, hfr⟩ := removeBodies_eq
            (processFruits (p.1 * w) (p.2 * h) s.fruits s).2.1
            (processFruits (p.1 * w) (p.2 * h) s.fruits s).1
          rw [hfr]
          show (processFruits (p.1 * w) (p.2 * h) s.fruits s).1.lives = s.lives
          exact processFruits_lives _ _ _ s

theorem checkSlicingAux_lives (w h : ℚ)
    (hands : List (Option (ℚ × ℚ) × Option (ℚ × ℚ))) :
    ∀ s : GameState, (checkSlicingAux w h hands s).lives = s.lives := by
  induction hands with
  | nil => intro s; rfl
  | cons hd rest ih =>
    intro s
    obtain ⟨hp, lp⟩ := hd
    simp only [checkSlicingAux]
    split
    · exact checkHand_lives w h hp lp s
    · rw [ih, checkHand_lives]

theorem fireTimer_lives (k : TimerKind) (s : GameState) :
    (fireTimer k s).lives = s.lives := by
  cases k <;> rfl

theorem advanceAux_lives (n : ℕ) :
    ∀ (t : ℤ) (s : GameState), (advanceAux n t s).lives = s.lives := by
  induction n with
  | zero => intro t s; rfl
  | succ n ih =>
    intro t s
    simp only [advanceAux]
    cases h : earliestDue t s.timers with
    | none => rfl
    | some p => rw [ih, fireTimer_lives]

theorem navCount_damage (s : GameState) (fr : List (ℕ × Fruit)) :
    navCount { s with fruits := fr, lives := s.lives - 1
                      events := GEvent.hitEffectDamage :: s.events } = navCount s := by
  simp [navCount, List.countP_cons]

theorem navCount_gameOverRun (s : GameState) :
    navCount (gameOverRun s) = navCount s + 1 := by
  simp [navCount, gameOverRun, List.countP_cons]

theorem livesOk_init : livesOk initGame := by
  left
  refine ⟨by norm_num [initGame], by simp [navCount, initGame], rfl⟩

theorem missFruit_livesOk (h : ℚ) (p : ℕ × Fruit) (s : GameState)
    (hs : livesOk s) : livesOk (missFruit h s p) := by
  cases hcr : s.crashed with
  | true => rw [missFruit_crashed h s p hcr]; exact hs
  | false =>
    by_cases hm : p.2.y > h + 100 ∧ p.2.vy > 0
    · cases hen : s.engineAlive with
      | false =>
        rw [missFruit_dead h s p hcr hm hen]
        exact hs
      | true =>
        cases hgs : s.gameStarted with
        | false =>
          rw [missFruit_notStarted h s p hcr hm hen hgs]
          exact hs
        | true =>
          rw [missFruit_hit h s p hcr hm hen hgs]
          rcases hs with ⟨hl, hn, _⟩ | ⟨_, _, he⟩
          · by_cases hz : s.lives - 1 ≤ 0
            · rw [if_pos hz]
              right
              refine ⟨?_, ?_, rfl⟩
              · show s.lives - 1 = 0
                omega
              · rw [navCount_gameOverRun, navCount_damage, hn]
            · rw [if_neg hz]
              left
              refine ⟨show (0:ℤ) < s.lives - 1 by omega, ?_, hen⟩
              rw [navCount_damage, hn]
          · rw [he] at hen
            exact absurd hen (by simp)
    · rw [missFruit_nomiss h s p hcr hm]
      exact hs

theorem foldl_missFruit_livesOk (h : ℚ) (ms : List (ℕ × Fruit)) :
    ∀ s : GameState, livesOk s → livesOk (ms.foldl (missFruit h) s) := by
  induction ms with
  | nil => intro s hs; exact hs
  | cons p rest ih =>
    intro s hs
    exact ih (missFruit h s p) (missFruit_livesOk h p s hs)

/-- C2: lives start at 3; over any sequence of missed-fruit checks the
lives never go below 0; at most one game-over navigation occurs, and it
occurs exactly when lives have reached 0; one missed-fruit check either
leaves lives unchanged or — only for a body below the screen
(`y > height + 100`), moving downward (`vy > 0`), while the game is
started — decrements them by exactly one; and no other session
operation (slicing pass, timer firing, spawning) ever changes lives. -/
theorem lives_rule (h : ℚ) (ms : List (ℕ × Fruit)) :
    initGame.lives = 3 ∧
    0 ≤ (ms.foldl (missFruit h) initGame).lives ∧
    navCount (ms.foldl (missFruit h) initGame) ≤ 1 ∧
    ((ms.foldl (missFruit h) initGame).lives = 0 ↔
      navCount (ms.foldl (missFruit h) initGame) = 1) ∧
    (∀ (s : GameState) (p : ℕ × Fruit),
      (missFruit h s p).lives = s.lives ∨
      (p.2.y > h + 100 ∧ p.2.vy > 0 ∧ s.gameStarted = true ∧
        (missFruit h s p).lives = s.lives - 1)) ∧
    (∀ (s : GameState) (w hq : ℚ)
        (hands : List (Option (ℚ × ℚ) × Option (ℚ × ℚ))),
      (sessionStep s (SessionOp.slice w hq hands)).lives = s.lives) ∧
    (∀ (s : GameState) (t : ℤ),
      (sessionStep s (SessionOp.advance t)).lives = s.lives) ∧
    (∀ (s : GameState) (p : ℕ × Fruit),
      (sessionStep s (SessionOp.spawn p)).lives = s.lives) := by
  have hinv := foldl_missFruit_livesOk h ms initGame livesOk_init
  refine ⟨rfl, ?_, ?_, ?_, ?_, ?_, ?_, ?_⟩
  · rcases hinv with ⟨hl, _, _⟩ | ⟨hl, _, _⟩ <;> omega
  · rcases hinv with ⟨_, hn, _⟩ | ⟨_, hn, _⟩ <;> omega
  · rcases hinv with ⟨hl, hn, _⟩ | ⟨hl, hn, _⟩ <;>
      constructor <;> intro hx <;> omega
  · intro s p
    cases hcr : s.crashed with
    | true => left; rw [missFruit_crashed h s p hcr]
    | false =>
      by_cases hm : p.2.y > h + 100 ∧ p.2.vy > 0
      · cases hen : s.engineAlive with
        | false => left; rw [missFruit_dead h s p hcr hm hen]
        | true =>
          cases hgs : s.gameStarted with
          | false => left; rw [missFruit_notStarted h s p hcr hm hen hgs]
          | true =>
            right
            refine ⟨hm.1, hm.2, rfl, ?_⟩
            rw [missFruit_hit h s p hcr hm hen hgs]
            split <;> rfl
      · left; rw [missFruit_nomiss h s p hcr hm]
  · intro s w hq hands
    simp only [sessionStep]
    split
    · rfl
    · split
      · exact checkSlicingAux_lives w hq hands s
      · rfl
  · intro s t
    exact advanceAux_lives _ t s
  · intro s p
    simp only [sessionStep]
    split_ifs <;> rfl

/-! ## C3 — hazard hit aborts the pass and ends the session -/

theorem processFruits_time (cx cy : ℚ) (l : List (ℕ × Fruit)) :
    ∀ s : GameState, (processFruits cx cy l s).1.time = s.time := by
  induction l with
  | nil => intro s; rfl
  | cons p rest ih =>
    intro s
    obtain ⟨id, f⟩ := p
    by_cases h1 : inRange cx cy f = true
    · by_cases h2 : f.ftype = "bomb"
      · simp [processFruits, h1, h2, bombHit]
      · simp only [processFruits, h1, if_true, h2, if_false]
        rw [ih, normalHit_time, powerUpCheck_time]
    · simp only [processFruits, h1, if_false]
      exact ih s

theorem processFruits_bomb_break (cx cy : ℚ) (pre : List (ℕ × Fruit))
    (id : ℕ) (b : Fruit) (post post' : List (ℕ × Fruit))
    (hin : inRange cx cy b = true) (hb : b.ftype = "bomb") :
    ∀ s : GameState,
      processFruits cx cy (pre ++ (id, b) :: post) s =
        processFruits cx cy (pre ++ (id, b) :: post') s := by
  induction pre with
  | nil => intro s; simp [processFruits, hin, hb]
  | cons hd tl ih =>
    intro s
    obtain ⟨hid, hf⟩ := hd
    by_cases h1 : inRange cx cy hf = true
    · by_cases h2 : hf.ftype = "bomb"
      · simp [processFruits, h1, h2]
      · simp only [List.cons_append, processFruits, h1, if_true, h2, if_false,
          List.append_eq]
        rw [ih]
    · simp only [List.cons_append, processFruits, h1, if_false]
      exact ih s

theorem checkSlicingAux_bomb (w h : ℚ) (hp lp : Option (ℚ × ℚ))
    (rest : List (Option (ℚ × ℚ) × Option (ℚ × ℚ))) (s : GameState)
    (hb2 : (checkHand w h hp lp s).2 = true) :
    checkSlicingAux w h ((hp, lp) :: rest) s = (checkHand w h hp lp s).1 := by
  simp only [checkSlicingAux, hb2, if_true]

theorem checkHand_bomb_state (w h : ℚ) (hp lp : Option (ℚ × ℚ)) (s : GameState)
    (hb2 : (checkHand w h hp lp s).2 = true) :
    (checkHand w h hp lp s).1.gameStarted = false ∧
    (s.time + 100, TimerKind.gameOverT) ∈ (checkHand w h hp lp s).1.timers := by
  revert hb2
  cases hp with
  | none => cases lp <;> intro hb2 <;> simp [checkHand] at hb2
  | some p =>
    cases lp with
    | none => intro hb2; simp [checkHand] at hb2
    | some l =>
      simp only [checkHand]
      split
      · intro hb2; simp at hb2
      · split
        · intro _
          refine ⟨rfl, ?_⟩
          have ht := processFruits_time (p.1 * w) (p.2 * h) s.fruits s
          simp only [ht]
          exact List.mem_cons_self _ _
        · intro hb2; simp at hb2

theorem fireTimer_combo (k : TimerKind) (s : GameState) :
    (fireTimer k s).combo = s.combo := by
  cases k <;> rfl

theorem fireTimer_gameStarted (k : TimerKind) (s : GameState) :
    (fireTimer k s).gameStarted = s.gameStarted := by
  cases k <;> rfl

theorem advanceAux_combo (n : ℕ) :
    ∀ (t : ℤ) (s : GameState), (advanceAux n t s).combo = s.combo := by
  induction n with
  | zero => intro t s; rfl
  | succ n ih =>
    intro t s
    simp only [advanceAux]
    cases h : earliestDue t s.timers with
    | none => rfl
    | some p => rw [ih, fireTimer_combo]

theorem advanceAux_gameStarted (n : ℕ) :
    ∀ (t : ℤ) (s : GameState), (advanceAux n t s).gameStarted = s.gameStarted := by
  induction n with
  | zero => intro t s; rfl
  | succ n ih =>
    intro t s
    simp only [advanceAux]
    cases h : earliestDue t s.timers with
    | none => rfl
    | some p => rw [ih, fireTimer_gameStarted]

theorem advanceTo_combo (t : ℤ) (s : GameState) :
    (advanceTo t s).combo = s.combo :=
  advanceAux_combo _ t s

theorem advanceTo_gameStarted (t : ℤ) (s : GameState) :
    (advanceTo t s).gameStarted = s.gameStarted :=
  advanceAux_gameStarted _ t s

theorem missFruit_combo (h : ℚ) (s : GameState) (p : ℕ × Fruit) :
    (missFruit h s p).combo = s.combo := by
  simp only [missFruit, gameOverRun]
  split_ifs <;> rfl

theorem missFruit_gameStarted (h : ℚ) (s : GameState) (p : ℕ × Fruit) :
    (missFruit h s p).gameStarted = s.gameStarted := by
  simp only [missFruit, gameOverRun]
  split_ifs <;> rfl

theorem sessionStep_frozen (s : GameState) (op : SessionOp)
    (hg : s.gameStarted = false) :
    (sessionStep s op).gameStarted = false ∧
    (sessionStep s op).score = s.score ∧
    (sessionStep s op).combo = s.combo := by
  cases op with
  | slice w h hands =>
    simp only [sessionStep, hg, Bool.false_eq_true, if_false]
    split_ifs <;> exact ⟨hg, rfl, rfl⟩
  | miss h p =>
    exact ⟨by rw [sessionStep]; rw [missFruit_gameStarted]; exact hg,
      by rw [sessionStep]; rw [missFruit_score],
      by rw [sessionStep]; rw [missFruit_combo]⟩
  | advance t =>
    exact ⟨by rw [sessionStep]; rw [advanceTo_gameStarted]; exact hg,
      by rw [sessionStep]; rw [advanceTo_score],
      by rw [sessionStep]; rw [advanceTo_combo]⟩
  | spawn p =>
    simp only [sessionStep]
    split_ifs <;> exact ⟨hg, rfl, rfl⟩

theorem runSession_cons (s : GameState) (op : SessionOp) (rest : List SessionOp) :
    runSession s (op :: rest) = runSession (sessionStep s op) rest := rfl

theorem runSession_frozen (ops : List SessionOp) :
    ∀ s : GameState, s.gameStarted = false →
      (runSession s ops).gameStarted = false ∧
      (runSession s ops).score = s.score ∧
      (runSession s ops).combo = s.combo := by
  induction ops with
  | nil => intro s hg; exact ⟨hg, rfl, rfl⟩
  | cons op rest ih =>
    intro s hg
    obtain ⟨h1, h2, h3⟩ := sessionStep_frozen s op hg
    obtain ⟨g1, g2, g3⟩ := ih (sessionStep s op) h1
    refine ⟨?_, ?_, ?_⟩
    · rw [runSession_cons]; exact g1
    · rw [runSession_cons, g2, h2]
    · rw [runSession_cons, g3, h3]

/-- C3: an in-range hazard stops the fruit loop (entries after the bomb
are never examined — the pass result does not depend on them); a
bomb-flagged hand pass makes `checkSlicing` return, skipping the
remaining hand slots; the resulting state has `gameStarted = false`
(whatever the lives value) with the delayed `gameOver()` scheduled
100ms out; that timer runs `gameOver()`; and from any state with
`gameStarted = false`, no sequence of session operations ever changes
the score or the combo again. -/
theorem hazard_aborts_and_ends :
    (∀ (cx cy : ℚ) (pre : List (ℕ × Fruit)) (id : ℕ) (b : Fruit)
        (post post' : List (ℕ × Fruit)) (s : GameState),
      inRange cx cy b = true → b.ftype = "bomb" →
      processFruits cx cy (pre ++ (id, b) :: post) s =
        processFruits cx cy (pre ++ (id, b) :: post') s) ∧
    (∀ (w h : ℚ) (hp lp : Option (ℚ × ℚ))
        (rest : List (Option (ℚ × ℚ) × Option (ℚ × ℚ))) (s : GameState),
      (checkHand w h hp lp s).2 = true →
      checkSlicingAux w h ((hp, lp) :: rest) s = (checkHand w h hp lp s).1) ∧
    (∀ (w h : ℚ) (hp lp : Option (ℚ × ℚ)) (s : GameState),
      (checkHand w h hp lp s).2 = true →
      (checkHand w h hp lp s).1.gameStarted = false ∧
      (s.time + 100, TimerKind.gameOverT) ∈ (checkHand w h hp lp s).1.timers) ∧
    (∀ s : GameState, fireTimer TimerKind.gameOverT s = gameOverRun s) ∧
    (∀ (s : GameState) (ops : List SessionOp), s.gameStarted = false →
      (runSession s ops).score = s.score ∧ (runSession s ops).combo = s.combo) :=
  ⟨fun cx cy pre id b post post' s hin hb =>
      processFruits_bomb_break cx cy pre id b post post' hin hb s,
   fun w h hp lp rest s hb2 => checkSlicingAux_bomb w h hp lp rest s hb2,
   fun w h hp lp s hb2 => checkHand_bomb_state w h hp lp s hb2,
   fun _ => rfl,
   fun s ops hg => ⟨(runSession_frozen ops s hg).2.1, (runSession_frozen ops s hg).2.2⟩⟩

theorem demo_bomb_flag :
    (checkHand 100 100 (some (0, 0)) (some (1/2, 1/2)) demoBombState).2 = true := by
  norm_num [checkHand, processFruits, inRange, effectiveRadius, bombFruit,
    demoBombState, initGame]

/-- Witness for C3: a swipe across the single bomb of `demoBombState`
flags the pass, stops the hand loop, un-starts the game and schedules
the game-over timer; a frozen (not-started) session keeps score and
combo across an `advance` step. -/
theorem hazard_aborts_and_ends_witness :
    processFruits 0 0 ([] ++ (1, bombFruit) :: []) initGame =
      processFruits 0 0 ([] ++ (1, bombFruit) :: [(9, appleFruit)]) initGame ∧
    checkSlicingAux 100 100 [(some (0, 0), some (1/2, 1/2)), (none, none)]
        demoBombState =
      (checkHand 100 100 (some (0, 0)) (some (1/2, 1/2)) demoBombState).1 ∧
    ((checkHand 100 100 (some (0, 0)) (some (1/2, 1/2)) demoBombState).1.gameStarted
        = false ∧
      (demoBombState.time + 100, TimerKind.gameOverT) ∈
        (checkHand 100 100 (some (0, 0)) (some (1/2, 1/2)) demoBombState).1.timers) ∧
    fireTimer TimerKind.gameOverT initGame = gameOverRun initGame ∧
    (runSession { initGame with gameStarted := false } [SessionOp.advance 5]).score =
      ({ initGame with gameStarted := false } : GameState).score ∧
    (runSession { initGame with gameStarted := false } [SessionOp.advance 5]).combo =
      ({ initGame with gameStarted := false } : GameState).combo :=
  ⟨hazard_aborts_and_ends.1 0 0 [] 1 bombFruit [] [(9, appleFruit)] initGame
      (by norm_num [inRange, effectiveRadius, bombFruit]) rfl,
   hazard_aborts_and_ends.2.1 100 100 _ _ [(none, none)] demoBombState demo_bomb_flag,
   hazard_aborts_and_ends.2.2.1 100 100 _ _ demoBombState demo_bomb_flag,
   hazard_aborts_and_ends.2.2.2.1 initGame,
   (hazard_aborts_and_ends.2.2.2.2 { initGame with gameStarted := false }
      [SessionOp.advance 5] rfl).1,
   (hazard_aborts_and_ends.2.2.2.2 { initGame with gameStarted := false }
      [SessionOp.advance 5] rfl).2⟩

/-! ## C6 — combo after a silence window -/

/-- C6 counterexample: after slicing one apple at time 0 and then
letting 1000ms (> 500ms) pass with no hit, the combo counter is still
1, not 0 — no code path resets the combo to 0 after a silence window. -/
theorem combo_silence_counterexample :
    (runSession initGame silenceTrace).combo = 1 ∧
    (runSession initGame silenceTrace).time -
      (runSession initGame silenceTrace).lastSliceTime = 1000 ∧
    ¬(runSession initGame silenceTrace).combo = 0 := by
  norm_num [silenceTrace, runSession, sessionStep, checkSlicingAux, checkHand,
    processFruits, inRange, effectiveRadius, powerUpCheck, normalHit,
    removeBodies, advanceTo, advanceAux, earliestDue, appleFruit, initGame,
    List.foldl,
    show ¬("apple" : String) = "bomb" from by decide,
    show ¬("apple" : String) = "freeze-banana" from by decide,
    show ¬("apple" : String) = "frenzy-banana" from by decide]

/-- C6 (amended): every hit sets the combo to at least 1, never 0; the
passage of time and missed fruits never change the combo, so after a
silence of more than 500ms the counter retains its previous value; the
reset to exactly 1 happens on the next hit occurring at least 500ms
after the previous one. -/
theorem combo_reset_amended :
    (∀ (f : Fruit) (s : GameState), 1 ≤ (normalHit f s).combo) ∧
    (∀ (t : ℤ) (s : GameState), (advanceTo t s).combo = s.combo) ∧
    (∀ (h : ℚ) (s : GameState) (p : ℕ × Fruit),
      (missFruit h s p).combo = s.combo) ∧
    (∀ (f : Fruit) (s : GameState), 500 ≤ s.time - s.lastSliceTime →
      (normalHit f s).combo = 1) :=
  ⟨fun f s => normalHit_combo_pos f s,
   fun t s => advanceTo_combo t s,
   fun h s p => missFruit_combo h s p,
   fun f s hts => by rw [normalHit_combo, if_neg (by omega)]⟩

/-- Witness for C6 (amended): a hit 600ms after the last one resets
the combo to 1. -/
theorem combo_reset_amended_witness :
    1 ≤ (normalHit appleFruit initGame).combo ∧
    (advanceTo 1000 initGame).combo = initGame.combo ∧
    (missFruit 600 initGame (1, appleFruit)).combo = initGame.combo ∧
    (normalHit appleFruit { initGame with time := 600 }).combo = 1 :=
  ⟨combo_reset_amended.1 appleFruit initGame,
   combo_reset_amended.2.1 1000 initGame,
   combo_reset_amended.2.2.1 600 initGame (1, appleFruit),
   combo_reset_amended.2.2.2 appleFruit { initGame with time := 600 } (by decide)⟩

/-! ## C7 — freeze power-up timeline -/

theorem advanceTo_single_unfreeze (s : GameState) (T t : ℤ)
    (hT : s.timers = [(T, TimerKind.unfreeze)]) (he : s.engineAlive = true) :
    advanceTo t s =
      if T ≤ t then
        { s with time := t, timers := ([] : List (ℤ × TimerKind)),
                 freezeActive := false, timeScale := 1 }
      else { s with time := t } := by
  have hlen : s.timers.length = 1 := by rw [hT]; rfl
  by_cases hTt : T ≤ t
  · simp [advanceTo, hlen, advanceAux, earliestDue, hT, hTt, removeFirstTimer,
      fireTimer, he]
  · simp [advanceTo, hlen, advanceAux, earliestDue, hT, hTt]

/-- C7: slicing a `freeze-banana` runs `activateFreeze`, which at once
sets the physics time-scale to 0.5 and marks Freeze active (doubling
the spawn delay the spawn loop computes); at every instant strictly
before 5000ms have elapsed the slow-motion and doubled delay persist,
and from exactly 5000ms after activation the scheduled timer has fired
on its own, restoring time-scale 1 and the baseline delay formula. -/
theorem freeze_powerup_timeline (s : GameState) (sc : ℕ)
    (ht : s.timers = []) (hf : s.frenzyActive = false)
    (he : s.engineAlive = true) :
    (∀ f : Fruit, f.ftype = "freeze-banana" → powerUpCheck f s = activateFreeze s) ∧
    (activateFreeze s).timeScale = 1/2 ∧
    (activateFreeze s).freezeActive = true ∧
    spawnDelay sc (activateFreeze s).frenzyActive (activateFreeze s).freezeActive =
      2 * spawnDelay sc false false ∧
    (∀ t : ℤ, t < s.time + 5000 →
      (advanceTo t (activateFreeze s)).freezeActive = true ∧
      (advanceTo t (activateFreeze s)).timeScale = 1/2 ∧
      spawnDelay sc (advanceTo t (activateFreeze s)).frenzyActive
          (advanceTo t (activateFreeze s)).freezeActive =
        2 * spawnDelay sc false false) ∧
    (∀ t : ℤ, s.time + 5000 ≤ t →
      (advanceTo t (activateFreeze s)).freezeActive = false ∧
      (advanceTo t (activateFreeze s)).timeScale = 1 ∧
      spawnDelay sc (advanceTo t (activateFreeze s)).frenzyActive
          (advanceTo t (activateFreeze s)).freezeActive =
        spawnDelay sc false false) := by
  have hT1 : (activateFreeze s).timers = [(s.time + 5000, TimerKind.unfreeze)] := by
    simp [activateFreeze, ht]
  have hE1 : (activateFreeze s).engineAlive = true := he
  have hadv := advanceTo_single_unfreeze (activateFreeze s) (s.time + 5000)
  refine ⟨?_, ?_, rfl, ?_, ?_, ?_⟩
  · intro f hft
    simp [powerUpCheck, hft]
  · simp [activateFreeze, he]
  · show spawnDelay sc s.frenzyActive true = 2 * spawnDelay sc false false
    rw [hf, spawnDelay_freeze, spawnDelay_base]
  · intro t htlt
    rw [hadv t hT1 hE1, if_neg (by omega)]
    refine ⟨rfl, ?_, ?_⟩
    · simp [activateFreeze, he]
    · show spawnDelay sc s.frenzyActive true = 2 * spawnDelay sc false false
      rw [hf, spawnDelay_freeze, spawnDelay_base]
  · intro t htge
    rw [hadv t hT1 hE1, if_pos htge]
    refine ⟨rfl, rfl, ?_⟩
    show spawnDelay sc s.frenzyActive false = spawnDelay sc false false
    rw [hf]

/-- Witness for C7 at the initial state: slow motion still holds at
t = 4999, restoration has happened at t = 5000. -/
theorem freeze_powerup_timeline_witness :
    powerUpCheck freezeBananaFruit initGame = activateFreeze initGame ∧
    (activateFreeze initGame).timeScale = 1/2 ∧
    (advanceTo 4999 (activateFreeze initGame)).freezeActive = true ∧
    (advanceTo 4999 (activateFreeze initGame)).timeScale = 1/2 ∧
    (advanceTo 5000 (activateFreeze initGame)).freezeActive = false ∧
    (advanceTo 5000 (activateFreeze initGame)).timeScale = 1 ∧
    spawnDelay 0 (advanceTo 5000 (activateFreeze initGame)).frenzyActive
        (advanceTo 5000 (activateFreeze initGame)).freezeActive =
      spawnDelay 0 false false :=
  ⟨(freeze_powerup_timeline initGame 0 rfl rfl rfl).1 freezeBananaFruit rfl,
   (freeze_powerup_timeline initGame 0 rfl rfl rfl).2.1,
   ((freeze_powerup_timeline initGame 0 rfl rfl rfl).2.2.2.2.1 4999 (by decide)).1,
   ((freeze_powerup_timeline initGame 0 rfl rfl rfl).2.2.2.2.1 4999 (by decide)).2.1,
   ((freeze_powerup_timeline initGame 0 rfl rfl rfl).2.2.2.2.2 5000 (by decide)).1,
   ((freeze_powerup_timeline initGame 0 rfl rfl rfl).2.2.2.2.2 5000 (by decide)).2.1,
   ((freeze_powerup_timeline initGame 0 rfl rfl rfl).2.2.2.2.2 5000 (by decide)).2.2⟩

/-! ## C9 — pool bounds and slot reuse -/

theorem fillPool_length (isActive : α → Bool) (mkNew : ℕ → α → α) (need : ℕ) :
    ∀ (l : List α) (n : ℕ),
      (fillPool isActive mkNew need l n).1.length = l.length := by
  intro l
  induction l with
  | nil => intro n; rfl
  | cons p rest ih =>
    intro n
    simp only [fillPool]
    split
    · rfl
    · split <;> simp [ih]

theorem fillPool_getD (isActive : α → Bool) (mkNew : ℕ → α → α) (need : ℕ)
    (d : α) :
    ∀ (l : List α) (n i : ℕ),
      (fillPool isActive mkNew need l n).1.getD i d = l.getD i d ∨
      isActive (l.getD i d) = false := by
  intro l
  induction l with
  | nil => intro n i; left; rfl
  | cons p rest ih =>
    intro n i
    simp only [fillPool]
    by_cases h1 : need ≤ n
    · rw [if_pos h1]; left; rfl
    · rw [if_neg h1]
      by_cases h2 : isActive p = true
      · rw [if_pos h2]
        cases i with
        | zero => left; rfl
        | succ i =>
          simp only [List.getD_cons_succ]
          exact ih n i
      · rw [if_neg h2]
        cases i with
        | zero =>
          right
          simpa using h2
        | succ i =>
          simp only [List.getD_cons_succ]
          exact ih (n + 1) i

theorem createParticles_length (x y : ℚ) (color : String) (isExplosion : Bool)
    (pays spays : ℕ → PPayload) (pool : List Particle) (ac : ℕ) :
    (createParticles x y color isExplosion pays spays pool ac).1.length =
      pool.length := by
  simp only [createParticles]
  split_ifs <;> simp [fillPool_length]

theorem createDebris_length (x y : ℚ) (dtype : String)
    (rotation sliceVx sliceVy : ℚ) (pays : ℕ → DPayload) (pool : List Debris) :
    (createDebris x y dtype rotation sliceVx sliceVy pays pool).length =
      pool.length := by
  simp [createDebris, fillPool_length]

theorem createParticles_getD (x y : ℚ) (color : String) (isExplosion : Bool)
    (pays spays : ℕ → PPayload) (pool : List Particle) (ac : ℕ) (i : ℕ) :
    (createParticles x y color isExplosion pays spays pool ac).1.getD i
        blankParticle = pool.getD i blankParticle ∨
    (pool.getD i blankParticle).active = false := by
  simp only [createParticles]
  split_ifs with h1 h2
  · left; rfl
  · dsimp only
    exact fillPool_getD (fun p => p.active)
      (fun i p => spawnParticle x y color isExplosion (pays i) p)
      30 blankParticle pool 0 i
  · dsimp only
    have ha := fillPool_getD (fun p => p.active)
      (fun i p => spawnParticle x y color isExplosion (pays i) p)
      15 blankParticle pool 0 i
    have hb := fillPool_getD (fun p => p.active)
      (fun i p => spawnSpark x y (spays i) p) 8 blankParticle
      (fillPool (fun p => p.active)
        (fun i p => spawnParticle x y color isExplosion (pays i) p)
        15 pool 0).1 0 i
    rcases hb with hb | hb
    · rw [hb]
      exact ha
    · rcases ha with ha | ha
      · right; rw [← ha]; exact hb
      · right; exact ha

theorem createDebris_getD (x y : ℚ) (dtype : String)
    (rotation sliceVx sliceVy : ℚ) (pays : ℕ → DPayload) (pool : List Debris)
    (i : ℕ) :
    (createDebris x y dtype rotation sliceVx sliceVy pays pool).getD i
        blankDebris = pool.getD i blankDebris ∨
    (pool.getD i blankDebris).active = false := by
  simp only [createDebris]
  exact fillPool_getD (fun d => d.active)
    (fun i d => spawnDebris x y dtype rotation sliceVx sliceVy (pays i) i d)
    2 blankDebris pool 0 i

theorem effectStep_lengths (sys : EffectSys) (op : EffectOp) :
    (effectStep sys op).particles.length = sys.particles.length ∧
    (effectStep sys op).debris.length = sys.debris.length := by
  cases op with
  | pcreate x y color isExplosion pays spays =>
    exact ⟨createParticles_length x y color isExplosion pays spays
      sys.particles sys.activeParticleCount, rfl⟩
  | dcreate x y dtype rotation sliceVx sliceVy pays =>
    exact ⟨rfl, createDebris_length x y dtype rotation sliceVx sliceVy pays
      sys.debris⟩
  | render h =>
    constructor
    · show (renderParticles h sys.particles sys.activeParticleCount).1.length = _
      simp only [renderParticles]
      split <;> simp
    · show (renderDebris h sys.debris).length = _
      simp [renderDebris]

theorem foldl_effectStep_lengths (ops : List EffectOp) :
    ∀ sys : EffectSys,
      (ops.foldl effectStep sys).particles.length = sys.particles.length ∧
      (ops.foldl effectStep sys).debris.length = sys.debris.length := by
  induction ops with
  | nil => intro sys; exact ⟨rfl, rfl⟩
  | cons op rest ih =>
    intro sys
    obtain ⟨h1, h2⟩ := effectStep_lengths sys op
    obtain ⟨g1, g2⟩ := ih (effectStep sys op)
    exact ⟨by rw [List.foldl_cons, g1, h1], by rw [List.foldl_cons, g2, h2]⟩

/-- C9: over any sequence of particle/debris creations and render
updates the pools keep their fixed sizes (200 and 30) — they are never
resized — so the number of `active` slots can never exceed the
capacity; and the producers touch only slots that were inactive: an
already-active slot is left exactly as it was, while an `active=false`
slot is what a create call may claim. -/
theorem pools_bounded (ops : List EffectOp) :
    (ops.foldl effectStep initEffects).particles.length = MAX_PARTICLES ∧
    (ops.foldl effectStep initEffects).debris.length = MAX_DEBRIS ∧
    countActiveP (ops.foldl effectStep initEffects).particles ≤ MAX_PARTICLES ∧
    countActiveD (ops.foldl effectStep initEffects).debris ≤ MAX_DEBRIS ∧
    (∀ (pool : List Particle) (ac : ℕ) (x y : ℚ) (c : String) (e : Bool)
        (pa sa : ℕ → PPayload) (i : ℕ),
      (createParticles x y c e pa sa pool ac).1.getD i blankParticle =
          pool.getD i blankParticle ∨
      (pool.getD i blankParticle).active = false) ∧
    (∀ (pool : List Debris) (x y : ℚ) (dt : String) (rot svx svy : ℚ)
        (pa : ℕ → DPayload) (i : ℕ),
      (createDebris x y dt rot svx svy pa pool).getD i blankDebris =
          pool.getD i blankDebris ∨
      (pool.getD i blankDebris).active = false) := by
  have hlen := foldl_effectStep_lengths ops initEffects
  have hlp : (ops.foldl effectStep initEffects).particles.length = MAX_PARTICLES := by
    rw [hlen.1]; simp [initEffects]
  have hld : (ops.foldl effectStep initEffects).debris.length = MAX_DEBRIS := by
    rw [hlen.2]; simp [initEffects]
  refine ⟨hlp, hld, ?_, ?_, ?_, ?_⟩
  · calc countActiveP (ops.foldl effectStep initEffects).particles
        ≤ (ops.foldl effectStep initEffects).particles.length :=
          List.countP_le_length _
      _ = MAX_PARTICLES := hlp
  · calc countActiveD (ops.foldl effectStep initEffects).debris
        ≤ (ops.foldl effectStep initEffects).debris.length :=
          List.countP_le_length _
      _ = MAX_DEBRIS := hld
  · intro pool ac x y c e pa sa i
    exact createParticles_getD x y c e pa sa pool ac i
  · intro pool x y dt rot svx svy pa i
    exact createDebris_getD x y dt rot svx svy pa pool i

/-! ## C10 — a hazard hit skips the queued removals of the same pass -/

theorem processFruits_fruits (cx cy : ℚ) (l : List (ℕ × Fruit)) :
    ∀ s : GameState, (processFruits cx cy l s).1.fruits = s.fruits := by
  induction l with
  | nil => intro s; rfl
  | cons p rest ih =>
    intro s
    obtain ⟨id, f⟩ := p
    by_cases h1 : inRange cx cy f = true
    · by_cases h2 : f.ftype = "bomb"
      · simp [processFruits, h1, h2, bombHit]
      · simp only [processFruits, h1, if_true, h2, if_false]
        rw [ih, normalHit_fruits, powerUpCheck_fruits]
    · simp only [processFruits, h1, if_false]
      exact ih s

theorem checkHand_bomb_fruits (w h : ℚ) (hp lp : Option (ℚ × ℚ))
    (s : GameState) (hb2 : (checkHand w h hp lp s).2 = true) :
    (checkHand w h hp lp s).1.fruits = s.fruits := by
  revert hb2
  cases hp with
  | none => cases lp <;> intro hb2 <;> simp [checkHand] at hb2
  | some p =>
    cases lp with
    | none => intro hb2; simp [checkHand] at hb2
    | some l =>
      simp only [checkHand]
      split
      · intro hb2; simp at hb2
      · split
        · intro _
          show (processFruits (p.1 * w) (p.2 * h) s.fruits s).1.fruits = s.fruits
          exact processFruits_fruits _ _ _ s
        · intro hb2; simp at hb2

/-- C10: the fruit loop itself never edits the fruits map (removals are
queued on `bodiesToRemove` and applied after the loop), so when a pass
ends on a hazard hit — which returns before the queued removals run —
the fruits map is left exactly as it was; concretely, a swipe over an
apple followed by a bomb banks the apple's 10 points and its popup
while both bodies, the sliced apple included, remain in the map. -/
theorem bomb_pass_nonatomic :
    (∀ (cx cy : ℚ) (l : List (ℕ × Fruit)) (s : GameState),
      (processFruits cx cy l s).1.fruits = s.fruits) ∧
    (∀ (w h : ℚ) (hp lp : Option (ℚ × ℚ)) (s : GameState),
      (checkHand w h hp lp s).2 = true →
      (checkHand w h hp lp s).1.fruits = s.fruits) ∧
    ((checkSlicingAux 100 100 [(some (0, 0), some (1/2, 1/2))]
        demoMixedState).fruits = demoMixedState.fruits ∧
      demoMixedState.fruits.length = 2 ∧
      (checkSlicingAux 100 100 [(some (0, 0), some (1/2, 1/2))]
        demoMixedState).score = demoMixedState.score + 10 ∧
      (checkSlicingAux 100 100 [(some (0, 0), some (1/2, 1/2))]
        demoMixedState).popups.length = demoMixedState.popups.length + 1 ∧
      (checkSlicingAux 100 100 [(some (0, 0), some (1/2, 1/2))]
        demoMixedState).gameStarted = false) := by
  refine ⟨fun cx cy l s => processFruits_fruits cx cy l s,
    fun w h hp lp s hb2 => checkHand_bomb_fruits w h hp lp s hb2,
    ?_, rfl, ?_, ?_, ?_⟩ <;>
  norm_num [checkSlicingAux, checkHand, processFruits, inRange,
    effectiveRadius, powerUpCheck, normalHit, bombHit, removeBodies,
    appleFruit, bombFruit, demoMixedState, initGame,
    show ¬("apple" : String) = "bomb" from by decide,
    show ¬("apple" : String) = "freeze-banana" from by decide,
    show ¬("apple" : String) = "frenzy-banana" from by decide]

/-- Witness for C10: the bomb-flagged pass over `demoBombState` leaves
its fruits map untouched. -/
theorem bomb_pass_nonatomic_witness :
    (processFruits 0 0 demoMixedState.fruits demoMixedState).1.fruits =
      demoMixedState.fruits ∧
    (checkHand 100 100 (some (0, 0)) (some (1/2, 1/2)) demoBombState).1.fruits =
      demoBombState.fruits :=
  ⟨bomb_pass_nonatomic.1 0 0 demoMixedState.fruits demoMixedState,
   bomb_pass_nonatomic.2.1 100 100 (some (0, 0)) (some (1/2, 1/2)) demoBombState
     demo_bomb_flag⟩

end FruitGame
